import Mathlib

/-!
Verification development for the `data_download.py` kline downloader.

The Python source is shallowly embedded below.  Machine integers are
modelled as `Int`/`Nat` (Python integers are unbounded, so no wrap-around
is needed).  Network and filesystem effects are modelled by passing an
explicit transport function (attempt number to optional response, or
window to rows) and an explicit directory-existence environment, and by
returning a trace of the effectful operations the code would perform.
Python exceptions are modelled with `Option`/`Except` results.
-/

namespace DataDownload

/-- Embeds `REQ_LIMIT = 1000` from the source. -/
def REQ_LIMIT : Int := 1000

/-- Embeds the `SUPPORT_INTERVAL` set from the source (a Python set literal,
modelled as a list with decidable membership). -/
def SUPPORT_INTERVAL : List String :=
  ["1m", "3m", "5m", "15m", "30m", "1h", "2h", "4h", "6h", "8h", "12h", "1d", "3d", "1w", "1M"]

/-- Embeds the dict `seconds_per_unit = {"m": 60, "h": 60*60, "d": 24*60*60, "w": 7*24*60*60}`
inside `interval_to_seconds`.  A missing key (Python `KeyError`) is `none`. -/
def seconds_per_unit (c : Char) : Option Int :=
  if c = 'm' then some 60
  else if c = 'h' then some (60 * 60)
  else if c = 'd' then some (24 * 60 * 60)
  else if c = 'w' then some (7 * 24 * 60 * 60)
  else none

/-- Parses a nonempty all-digit character list as a natural number, else `none`. -/
def parseDigits (cs : List Char) : Option Nat :=
  if cs ≠ [] ∧ cs.all Char.isDigit = true then
    some (cs.foldl (fun a c => 10 * a + (c.toNat - 48)) 0)
  else none

/-- Models Python `int(s)` on a string: an optional sign followed by a nonempty
digit run; anything else raises `ValueError`, modelled as `none`.  (Python also
tolerates surrounding whitespace and inner underscores; those forms are not
exercised by any interval token and are not modelled.) -/
def parsePyInt (s : String) : Option Int :=
  match s.data with
  | [] => none
  | a :: rest =>
    if a = '+' then (parseDigits rest).map (fun n => (n : Int))
    else if a = '-' then (parseDigits rest).map (fun n => -(n : Int))
    else (parseDigits (a :: rest)).map (fun n => (n : Int))

/-- Embeds `interval_to_seconds`: `int(interval[:-1]) * seconds_per_unit[interval[-1]]`.
Any raised exception (`IndexError` on the empty string, `ValueError` from `int`,
`KeyError` from the dict lookup) is modelled as `none`. -/
def interval_to_seconds (interval : String) : Option Int :=
  match interval.data.getLast? with
  | none => none
  | some c =>
    match parsePyInt (String.mk interval.data.dropLast), seconds_per_unit c with
    | some n, some u => some (n * u)
    | _, _ => none

/-- Holds when the final character of the token is one of the four unit
suffixes that `seconds_per_unit` knows (`m`, `h`, `d`, `w`). -/
def unitSuffixOk (s : String) : Bool :=
  match s.data.getLast? with
  | none => false
  | some c => (c == 'm') || (c == 'h') || (c == 'd') || (c == 'w')

/-- Embeds the `while` loop of `get_start_end_pairs`:
`cur_start = cur_end = start_ts; while cur_end < end_ts - ts_interval:
cur_end = min(end_ts, cur_start + (REQ_LIMIT - 1) * ts_interval); append;
cur_start = cur_end + ts_interval`.  The `fuel` argument only bounds the
number of iterations so that the function is total; `get_start_end_pairs_ts`
supplies enough fuel that the loop always exits through its own condition
whenever the interval is positive. -/
def pairsGo (E iv : Int) : Int → Int → Nat → List (Int × Int)
  | _, _, 0 => []
  | cur_start, cur_end, fuel + 1 =>
    if cur_end < E - iv then
      (cur_start, min E (cur_start + (REQ_LIMIT - 1) * iv)) ::
        pairsGo E iv (min E (cur_start + (REQ_LIMIT - 1) * iv) + iv)
          (min E (cur_start + (REQ_LIMIT - 1) * iv)) fuel
    else []

/-- Embeds `get_start_end_pairs` on already-converted Unix timestamps.
(The source converts its date-string arguments with `strptime`/`mktime`,
which depends on the local timezone; the loop itself only sees the two
integer timestamps, which are taken as inputs here.) -/
def get_start_end_pairs_ts (start_ts end_ts iv : Int) : List (Int × Int) :=
  pairsGo end_ts iv start_ts start_ts ((end_ts - start_ts).toNat + 1)

/-- Embeds `get_start_end_pairs` including the `interval_to_seconds` call;
`none` models the exception that call raises on an unconvertible token. -/
def get_start_end_pairs (start_ts end_ts : Int) (interval : String) :
    Option (List (Int × Int)) :=
  (interval_to_seconds interval).map (fun iv => get_start_end_pairs_ts start_ts end_ts iv)

/-- A raw kline row as returned by the exchange, modelled as a list of
integer-coded fields (the claims never inspect individual fields). -/
abbrev KRow : Type := List Int

/-- An observable side effect of `get_klines`: one HTTP GET (tagged with the
zero-based attempt number) or one `time.sleep` of the given seconds. -/
inductive Event where
  | httpGet (attempt : Nat)
  | sleepSec (n : Nat)
deriving DecidableEq

/-- Holds for HTTP GET events. -/
def Event.isCall : Event → Bool
  | .httpGet _ => true
  | _ => false

/-- Holds for 2-second sleep events. -/
def Event.isSleep2 : Event → Bool
  | .sleepSec n => n == 2
  | _ => false

/-- Embeds the retry loop of `get_klines`, lines 49-58: for each attempt index,
issue the request (`tr attempt`, where `none` models a raised
`requests.exceptions.RequestException` and `some rows` a 2xx JSON body);
on success return the body at once, on failure log, sleep 2 seconds and
retry; after exhausting all attempts return `[]`.  The returned trace lists
the HTTP calls and sleeps in order. -/
def get_klines_run (tr : Nat → Option (List KRow)) : Nat → Nat → List Event × List KRow
  | _, 0 => ([], [])
  | attempt, n + 1 =>
    match tr attempt with
    | some rows => ([Event.httpGet attempt], rows)
    | none =>
      (Event.httpGet attempt :: Event.sleepSec 2 :: (get_klines_run tr (attempt + 1) n).1,
       (get_klines_run tr (attempt + 1) n).2)

/-- Embeds `get_klines` with its `retry_attempts` parameter (default 3 in the
source). -/
def get_klines (tr : Nat → Option (List KRow)) (retry_attempts : Nat) :
    List Event × List KRow :=
  get_klines_run tr 0 retry_attempts

/-- The expected trace of a run in which the first `n` attempts starting at
attempt index `a` all fail: each failed attempt is one HTTP call followed by
one 2-second sleep. -/
def failTrace : Nat → Nat → List Event
  | _, 0 => []
  | a, n + 1 => Event.httpGet a :: Event.sleepSec 2 :: failTrace (a + 1) n

/-- Python truthiness of the optional numeric arguments `since`/`to` of
`get_klines`: `None` and `0` are falsy, every other number is truthy. -/
def pyTruthyInt : Option Int → Bool
  | none => false
  | some n => n != 0

/-- The query-parameter dict built by `get_klines`, lines 39-47. -/
structure KlineParams where
  symbol : String
  interval : String
  limit : Int
  startTime : Option Int
  endTime : Option Int
deriving DecidableEq

/-- Embeds lines 39-47 of `get_klines`: the base params plus `startTime`
(resp. `endTime`) only when `since` (resp. `to`) is truthy, multiplied by
1000 to convert seconds to milliseconds. -/
def get_klines_params (symbol interval : String) (since : Option Int) (limit : Int)
    (to? : Option Int) : KlineParams :=
  { symbol := symbol
    interval := interval
    limit := limit
    startTime := if pyTruthyInt since then some (since.getD 0 * 1000) else none
    endTime := if pyTruthyInt to? then some (to?.getD 0 * 1000) else none }

/-- One instrument record from the `exchangeInfo` response, keeping the three
fields the code reads. -/
structure SymbolInfo where
  baseAsset : String
  quoteAsset : String
  status : String
deriving DecidableEq

/-- Models Python `str.upper()`: each character is mapped to its uppercase
form (`str.upper` operates character by character). -/
def pyUpper (s : String) : String :=
  String.mk (s.data.map Char.toUpper)

/-- Embeds `get_support_symbols`: the whole request is modelled by its outcome
`resp` (`Except.error` models a raised `requests.exceptions.RequestException`,
including the non-2xx case surfaced by `raise_for_status`).  On error the
handler logs and the initial `res = []` is returned; on success one uppercased
"BASE/QUOTE" string is collected per instrument whose status is "TRADING". -/
def get_support_symbols (resp : Except String (List SymbolInfo)) : List String :=
  match resp with
  | .error _ => []
  | .ok symbols =>
    symbols.filterMap (fun si =>
      if si.status = "TRADING" then
        some (pyUpper si.baseAsset ++ "/" ++ pyUpper si.quoteAsset)
      else none)

/-- Errors that can abort `download_full_klines`, distinguishing the
explicitly raised unsupported-interval `Exception` from the library errors
the code does not handle (`KeyError` out of `interval_to_seconds`,
`ValueError` out of `np.concatenate([])`, `FileNotFoundError` out of
`os.makedirs('')`). -/
inductive DlError where
  | unsupported (interval : String)
  | keyError
  | concatValueError
  | fileNotFound
deriving DecidableEq

/-- Embeds lines 63-76 of `download_full_klines`: the supported-interval
check, the window computation, one `get_klines` call per window (modelled by
`fetch`, which maps a window's start/end timestamps to the rows that call
returns), accumulation of only the non-empty results, and
`np.concatenate(klines)`, which raises `ValueError` when `klines` is the
empty list.  The first component of the result is the list of windows
actually requested over the network (empty when the code aborts before any
request); the `DataFrame` reshaping of lines 77-105 is not needed by any
claim and is not modelled. -/
def download_full_klines (fetch : Int → Int → List KRow) (symbol interval : String)
    (start_ts end_ts : Int) : List (Int × Int) × Except DlError (List KRow) :=
  if interval ∈ SUPPORT_INTERVAL then
    match interval_to_seconds interval with
    | none => ([], Except.error DlError.keyError)
    | some iv =>
      let pairs := get_start_end_pairs_ts start_ts end_ts iv
      let klines := (pairs.map (fun p => fetch p.1 p.2)).filter (fun rows => rows.length > 0)
      if klines.isEmpty then (pairs, Except.error DlError.concatValueError)
      else (pairs, Except.ok klines.flatten)
  else ([], Except.error (DlError.unsupported interval))

/-- A filesystem operation performed by the save step. -/
inductive FsOp where
  | makedirs (d : String)
  | writeCsv (path : String)
deriving DecidableEq

/-- Embeds Python `os.path.dirname` (posixpath): take everything up to and
including the last `/`, then strip trailing slashes unless the head is made
of slashes only; a path with no `/` has dirname `""`. -/
def dirname (p : String) : String :=
  match p.data.reverse.findIdx? (· = '/') with
  | none => ""
  | some k =>
    let head := p.data.take (p.data.length - k)
    if head.all (· = '/') then String.mk head
    else String.mk (head.reverse.dropWhile (· = '/')).reverse

/-- Embeds Python `os.path.exists` over an abstract directory environment:
`os.path.exists("")` is always `False` in Python, every other path is looked
up in the environment. -/
def py_exists (env : String → Bool) (p : String) : Bool :=
  if p = "" then false else env p

/-- Python truthiness of the optional string `save_to`: `None` and the empty
string are falsy. -/
def pyTruthyStr : Option String → Bool
  | none => false
  | some s => !(s == "")

/-- Models `symbol.replace("/", "-")`: since the pattern is the single
character `/`, Python's `str.replace` is exactly a character map. -/
def replaceSlashDash (s : String) : String :=
  String.mk (s.data.map (fun c => if c = '/' then '-' else c))

/-- The generated default filename
`{symbol-with-dash}_{interval}_{real_start}_{real_end}.csv` of line 114. -/
def default_csv_name (symbol interval real_start real_end : String) : String :=
  replaceSlashDash symbol ++ "_" ++ interval ++ "_" ++ real_start ++ "_" ++ real_end ++ ".csv"

/-- Embeds lines 107-114 of `download_full_klines` (the save step).  With a
truthy `save_to`: compute `save_dir = os.path.dirname(save_to)`; if it does
not exist call `os.makedirs(save_dir)` — which raises `FileNotFoundError`
when `save_dir` is the empty string — then write the CSV to `save_to`.
Otherwise write the CSV to the generated default filename.  Returns the
filesystem operations performed in order, plus the error if one is raised. -/
def save_step (env : String → Bool) (save_to : Option String)
    (symbol interval real_start real_end : String) : List FsOp × Option DlError :=
  if pyTruthyStr save_to then
    let p := save_to.getD ""
    let d := dirname p
    if py_exists env d then ([FsOp.writeCsv p], none)
    else if d = "" then ([], some DlError.fileNotFound)
    else ([FsOp.makedirs d, FsOp.writeCsv p], none)
  else ([FsOp.writeCsv (default_csv_name symbol interval real_start real_end)], none)

end DataDownload

namespace DataDownload

/-- Helper: collecting `f a` for exactly the elements satisfying `p` is the
same as filtering by `p` and then mapping `f`. -/
theorem filterMap_if_eq_filter_map {α β : Type} (p : α → Prop) [DecidablePred p] (f : α → β) :
    ∀ l : List α,
      l.filterMap (fun a => if p a then some (f a) else none) =
        (l.filter (fun a => decide (p a))).map f := by
  intro l
  induction l with
  | nil => rfl
  | cons a t ih => by_cases h : p a <;> simp [List.filter_cons, h, ih]

/-- C3 (counterexample): the monthly token `1M` belongs to `SUPPORT_INTERVAL`,
yet `interval_to_seconds` does not return a number of seconds for it (the
lookup `seconds_per_unit["M"]` raises `KeyError`), so the claim that every
supported token is converted correctly is false. -/
theorem interval_to_seconds_1M_counterexample :
    "1M" ∈ SUPPORT_INTERVAL ∧ interval_to_seconds "1M" = none := by decide

/-- C3 (amended): for every supported interval token except `1M`,
`interval_to_seconds` returns the correct positive number of seconds; in
particular `15m` maps to 900, `1h` to 3600 and `1d` to 86400. -/
theorem interval_to_seconds_supported_correct :
    interval_to_seconds "1m" = some 60 ∧
    interval_to_seconds "3m" = some 180 ∧
    interval_to_seconds "5m" = some 300 ∧
    interval_to_seconds "15m" = some 900 ∧
    interval_to_seconds "30m" = some 1800 ∧
    interval_to_seconds "1h" = some 3600 ∧
    interval_to_seconds "2h" = some 7200 ∧
    interval_to_seconds "4h" = some 14400 ∧
    interval_to_seconds "6h" = some 21600 ∧
    interval_to_seconds "8h" = some 28800 ∧
    interval_to_seconds "12h" = some 43200 ∧
    interval_to_seconds "1d" = some 86400 ∧
    interval_to_seconds "3d" = some 259200 ∧
    interval_to_seconds "1w" = some 604800 ∧
    ∀ t ∈ SUPPORT_INTERVAL, t ≠ "1M" →
      (interval_to_seconds t).isSome = true ∧ 0 < (interval_to_seconds t).getD 0 := by
  decide

/-- Witness for the amended C3 at the concrete token `30m`. -/
theorem interval_to_seconds_supported_correct_witness :
    ("30m" ∈ SUPPORT_INTERVAL ∧ "30m" ≠ "1M") ∧
    ((interval_to_seconds "30m").isSome = true ∧ 0 < (interval_to_seconds "30m").getD 0) :=
  ⟨⟨by decide, by decide⟩,
   interval_to_seconds_supported_correct.2.2.2.2.2.2.2.2.2.2.2.2.2.2 "30m" (by decide) (by decide)⟩

/-- C4 (counterexample): the token `xm` has a supported unit suffix (`m`),
yet `interval_to_seconds` fails on it (Python `int("x")` raises
`ValueError`), so "succeeds for every token whose suffix is one of those
four" is false for arbitrary strings. -/
theorem interval_to_seconds_suffix_counterexample :
    unitSuffixOk "xm" = true ∧ interval_to_seconds "xm" = none := by decide

/-- Helper: Python `int(s)` succeeds on every nonempty digit string. -/
theorem parsePyInt_digits (ds : List Char) (hne : ds ≠ []) (hdig : ds.all Char.isDigit = true) :
    ∃ n : Int, parsePyInt (String.mk ds) = some n := by
  cases ds with
  | nil => exact absurd rfl hne
  | cons a as =>
    have ha : a.isDigit = true := List.all_eq_true.mp hdig a (List.mem_cons_self a as)
    have hap : ¬ a = '+' := by intro h; subst h; exact absurd ha (by decide)
    have ham : ¬ a = '-' := by intro h; subst h; exact absurd ha (by decide)
    simp only [parsePyInt]
    rw [if_neg hap, if_neg ham, parseDigits, if_pos ⟨List.cons_ne_nil a as, hdig⟩]
    exact ⟨_, rfl⟩

/-- Helper: a character that is none of the four unit suffixes is missing
from the `seconds_per_unit` dict. -/
theorem seconds_per_unit_eq_none {c : Char} (h1 : ¬ c = 'm') (h2 : ¬ c = 'h')
    (h3 : ¬ c = 'd') (h4 : ¬ c = 'w') : seconds_per_unit c = none := by
  simp [seconds_per_unit, h1, h2, h3, h4]

/-- C4 (amended): `interval_to_seconds` fails for every token whose unit
suffix is not one of `m`/`h`/`d`/`w` (in particular the monthly token `1M`);
it succeeds for every token consisting of a nonempty digit string followed
by one of those four suffixes, and hence for every supported token with such
a suffix (all of `SUPPORT_INTERVAL` except `1M`). -/
theorem interval_to_seconds_suffix_spec :
    (∀ s : String, unitSuffixOk s = false → interval_to_seconds s = none) ∧
    (∀ ds : List Char, ds ≠ [] → ds.all Char.isDigit = true →
      ∀ c : Char, (c = 'm' ∨ c = 'h' ∨ c = 'd' ∨ c = 'w') →
        (interval_to_seconds (String.mk (ds ++ [c]))).isSome = true) ∧
    (∀ t ∈ SUPPORT_INTERVAL, unitSuffixOk t = true → (interval_to_seconds t).isSome = true) := by
  refine ⟨?_, ?_, by decide⟩
  · intro s h
    cases hl : s.data.getLast? with
    | none => simp [interval_to_seconds, hl]
    | some c =>
      rw [unitSuffixOk, hl] at h
      simp only [Bool.or_eq_false_iff, beq_eq_false_iff_ne, ne_eq] at h
      obtain ⟨⟨⟨h1, h2⟩, h3⟩, h4⟩ := h
      simp only [interval_to_seconds, hl]
      rw [seconds_per_unit_eq_none h1 h2 h3 h4]
      cases parsePyInt (String.mk s.data.dropLast) <;> rfl
  · intro ds hne hdig c hc
    have hdata : (String.mk (ds ++ [c])).data = ds ++ [c] := rfl
    simp only [interval_to_seconds, hdata, List.getLast?_concat, List.dropLast_concat]
    obtain ⟨n, hn⟩ := parsePyInt_digits ds hne hdig
    rw [hn]
    rcases hc with rfl | rfl | rfl | rfl <;> rfl

/-- Witness for the amended C4 at `1M` (failure branch), `1m` built from the
digit `1` and suffix `m` (success branch), and the supported token `15m`. -/
theorem interval_to_seconds_suffix_spec_witness :
    (unitSuffixOk "1M" = false ∧ interval_to_seconds "1M" = none) ∧
    (interval_to_seconds (String.mk (['1'] ++ ['m']))).isSome = true ∧
    ("15m" ∈ SUPPORT_INTERVAL ∧ unitSuffixOk "15m" = true ∧
      (interval_to_seconds "15m").isSome = true) :=
  ⟨⟨by decide, interval_to_seconds_suffix_spec.1 "1M" (by decide)⟩,
   interval_to_seconds_suffix_spec.2.1 ['1'] (by decide) (by decide) 'm' (Or.inl rfl),
   ⟨by decide, by decide,
    interval_to_seconds_suffix_spec.2.2 "15m" (by decide) (by decide)⟩⟩

/-- C9: on any network failure or non-2xx response (modelled as an error
outcome of the request) `get_support_symbols` returns the empty list — the
function is total, so nothing propagates to the caller — and on success it
returns exactly one uppercased "BASE/QUOTE" string per instrument whose
status is "TRADING". -/
theorem get_support_symbols_spec :
    (∀ msg : String, get_support_symbols (Except.error msg) = []) ∧
    (∀ infos : List SymbolInfo,
      get_support_symbols (Except.ok infos) =
        (infos.filter (fun si => decide (si.status = "TRADING"))).map
          (fun si => pyUpper si.baseAsset ++ "/" ++ pyUpper si.quoteAsset)) :=
  ⟨fun _ => rfl, fun infos => filterMap_if_eq_filter_map _ _ infos⟩

/-- C10: `get_klines` includes the `startTime` (resp. `endTime`) parameter
exactly when `since` (resp. `to`) is truthy in the Python sense: `None` and
the epoch timestamp `0` are omitted, any nonzero timestamp is sent
multiplied by 1000. -/
theorem get_klines_params_truthiness (symbol interval : String) (limit : Int)
    (since to? : Option Int) :
    ((since = none ∨ since = some 0) →
      (get_klines_params symbol interval since limit to?).startTime = none) ∧
    (∀ v : Int, since = some v → v ≠ 0 →
      (get_klines_params symbol interval since limit to?).startTime = some (v * 1000)) ∧
    ((to? = none ∨ to? = some 0) →
      (get_klines_params symbol interval since limit to?).endTime = none) ∧
    (∀ v : Int, to? = some v → v ≠ 0 →
      (get_klines_params symbol interval since limit to?).endTime = some (v * 1000)) := by
  refine ⟨?_, ?_, ?_, ?_⟩
  · rintro (rfl | rfl) <;> simp [get_klines_params, pyTruthyInt]
  · rintro v rfl hv; simp [get_klines_params, pyTruthyInt, hv]
  · rintro (rfl | rfl) <;> simp [get_klines_params, pyTruthyInt]
  · rintro v rfl hv; simp [get_klines_params, pyTruthyInt, hv]

/-- Witness for C10: a window starting at epoch 0 is sent without a
`startTime` bound, while a nonzero `to` becomes `endTime` in milliseconds. -/
theorem get_klines_params_truthiness_witness :
    (get_klines_params "BTCUSDT" "1h" (some 0) 1000 (some 5)).startTime = none ∧
    (get_klines_params "BTCUSDT" "1h" (some 0) 1000 (some 5)).endTime = some 5000 :=
  ⟨(get_klines_params_truthiness "BTCUSDT" "1h" 1000 (some 0) (some 5)).1 (Or.inr rfl),
   (get_klines_params_truthiness "BTCUSDT" "1h" 1000 (some 0) (some 5)).2.2.2 5 rfl (by decide)⟩

end DataDownload

namespace DataDownload

/-- Helper: when the attempts starting at `a` all fail, the retry loop runs to
exhaustion, producing one call and one 2-second sleep per attempt and the
empty result. -/
theorem get_klines_run_all_fail (tr : Nat → Option (List KRow)) :
    ∀ (n a : Nat), (∀ k, k < n → tr (a + k) = none) →
      get_klines_run tr a n = (failTrace a n, []) := by
  intro n
  induction n with
  | zero => intro a _; rfl
  | succ m ih =>
    intro a h
    have h0 : tr a = none := by simpa using h 0 (Nat.succ_pos m)
    have hrec : get_klines_run tr (a + 1) m = (failTrace (a + 1) m, []) := by
      refine ih (a + 1) (fun k hk => ?_)
      have he : a + (k + 1) = a + 1 + k := by omega
      have := h (k + 1) (by omega)
      rw [he] at this
      exact this
    simp [get_klines_run, h0, hrec, failTrace]

/-- Helper: when the attempts starting at `a` fail `m` times and the next one
succeeds with `rows`, the loop stops right after the successful call. -/
theorem get_klines_run_succeeds (tr : Nat → Option (List KRow)) :
    ∀ (n a m : Nat) (rows : List KRow), m < n →
      (∀ k, k < m → tr (a + k) = none) → tr (a + m) = some rows →
      get_klines_run tr a n = (failTrace a m ++ [Event.httpGet (a + m)], rows) := by
  intro n
  induction n with
  | zero => intro a m rows hm; exact absurd hm (Nat.not_lt_zero m)
  | succ n ih =>
    intro a m rows hm hfail hsucc
    cases m with
    | zero =>
      have h0 : tr a = some rows := by simpa using hsucc
      simp [get_klines_run, h0, failTrace]
    | succ m' =>
      have h0 : tr a = none := by simpa using hfail 0 (Nat.succ_pos m')
      have hrec : get_klines_run tr (a + 1) n =
          (failTrace (a + 1) m' ++ [Event.httpGet (a + 1 + m')], rows) := by
        refine ih (a + 1) m' rows (by omega) (fun k hk => ?_) ?_
        · have he : a + (k + 1) = a + 1 + k := by omega
          have := hfail (k + 1) (by omega)
          rw [he] at this
          exact this
        · have he : a + (m' + 1) = a + 1 + m' := by omega
          rw [he] at hsucc
          exact hsucc
      have he2 : a + 1 + m' = a + (m' + 1) := by omega
      simp [get_klines_run, h0, hrec, failTrace, he2]

/-- Helper: `failTrace a n` contains exactly `n` HTTP calls. -/
theorem failTrace_countP_call : ∀ (n a : Nat), (failTrace a n).countP Event.isCall = n := by
  intro n
  induction n with
  | zero => intro a; rfl
  | succ m ih => intro a; simp [failTrace, List.countP_cons, Event.isCall, ih]

/-- Helper: `failTrace a n` contains exactly `n` sleeps of 2 seconds. -/
theorem failTrace_countP_sleep : ∀ (n a : Nat), (failTrace a n).countP Event.isSleep2 = n := by
  intro n
  induction n with
  | zero => intro a; rfl
  | succ m ih => intro a; simp [failTrace, List.countP_cons, Event.isCall, Event.isSleep2, ih]

/-- C5: when every attempt fails, `get_klines` makes exactly
`retry_attempts` HTTP calls, sleeps 2 seconds after each failed attempt, and
returns the empty list (no exception escapes); when the first `m` attempts
fail and attempt `m` succeeds with `rows` (with `m < retry_attempts`), it
returns `rows` having made exactly `m + 1` calls. -/
theorem get_klines_retry_behavior (tr : Nat → Option (List KRow)) (n m : Nat)
    (rows : List KRow) :
    ((∀ k, k < n → tr k = none) →
      get_klines tr n = (failTrace 0 n, []) ∧
      (get_klines tr n).1.countP Event.isCall = n ∧
      (get_klines tr n).1.countP Event.isSleep2 = n) ∧
    ((∀ k, k < m → tr k = none) → tr m = some rows → m < n →
      (get_klines tr n).2 = rows ∧ (get_klines tr n).1.countP Event.isCall = m + 1) := by
  constructor
  · intro h
    have hrun : get_klines_run tr 0 n = (failTrace 0 n, []) :=
      get_klines_run_all_fail tr n 0 (fun k hk => by simpa using h k hk)
    refine ⟨hrun, ?_, ?_⟩
    · rw [get_klines, hrun]; exact failTrace_countP_call n 0
    · rw [get_klines, hrun]; exact failTrace_countP_sleep n 0
  · intro h1 h2 h3
    have hrun : get_klines_run tr 0 n = (failTrace 0 m ++ [Event.httpGet (0 + m)], rows) :=
      get_klines_run_succeeds tr n 0 m rows h3 (fun k hk => by simpa using h1 k hk)
        (by simpa using h2)
    constructor
    · rw [get_klines, hrun]
    · rw [get_klines, hrun]
      simp [List.countP_append, failTrace_countP_call, List.countP_cons, Event.isCall]

/-- Witness for C5: a transport that always fails, run with 3 attempts, and a
transport that fails twice then succeeds, also run with 3 attempts. -/
theorem get_klines_retry_behavior_witness :
    (get_klines (fun _ => none) 3 = (failTrace 0 3, []) ∧
      (get_klines (fun _ => none) 3).1.countP Event.isCall = 3 ∧
      (get_klines (fun _ => none) 3).1.countP Event.isSleep2 = 3) ∧
    ((get_klines (fun k => if k < 2 then none else some [[7]]) 3).2 = [[7]] ∧
      (get_klines (fun k => if k < 2 then none else some [[7]]) 3).1.countP Event.isCall = 3) :=
  ⟨(get_klines_retry_behavior (fun _ => none) 3 0 []).1 (fun _ _ => rfl),
   (get_klines_retry_behavior (fun k => if k < 2 then none else some [[7]]) 3 2 [[7]]).2
     (fun k hk => by simp [hk]) (by decide) (by decide)⟩

/-- C6: for an interval token outside the supported set,
`download_full_klines` raises the unsupported-interval error at once: no
window is computed and no HTTP request is issued (the result is independent
of the fetch transport, with an empty request trace). -/
theorem download_full_klines_unsupported (fetch : Int → Int → List KRow)
    (symbol interval : String) (start_ts end_ts : Int)
    (h : interval ∉ SUPPORT_INTERVAL) :
    download_full_klines fetch symbol interval start_ts end_ts =
      ([], Except.error (DlError.unsupported interval)) := by
  simp [download_full_klines, h]

/-- Witness for C6 at the unsupported token `1s` (seconds are not a
supported granularity). -/
theorem download_full_klines_unsupported_witness :
    "1s" ∉ SUPPORT_INTERVAL ∧
    download_full_klines (fun _ _ => [[1, 2, 3]]) "BTC/USDT" "1s" 0 1000000 =
      ([], Except.error (DlError.unsupported "1s")) :=
  ⟨by decide, download_full_klines_unsupported (fun _ _ => [[1, 2, 3]]) "BTC/USDT" "1s" 0 1000000 (by decide)⟩

/-- C7 (code bug, reference behavior): with a supported interval and every
window's fetch returning the empty result, `download_full_klines` still
issues the window request and then hits `np.concatenate([])`, which raises
`ValueError` — an uncaught crash instead of the explicit "no data" error the
specification requires. -/
theorem download_full_klines_all_empty_crashes :
    download_full_klines (fun _ _ => []) "BTC/USDT" "1h" 0 1000000 =
      ([(0, 1000000)], Except.error DlError.concatValueError) := rfl

/-- C8 (counterexample): an explicit bare-filename output path (`out.csv`,
whose parent directory is the current directory) makes the save step fail
with `FileNotFoundError` from `os.makedirs('')` — nothing is written — even
though every existing directory reports as present, contradicting the claim
that the table is written to the given path. -/
theorem save_step_bare_filename_counterexample :
    save_step (fun _ => true) (some "out.csv") "BTC/USDT" "15m" "2021-07-01" "2021-08-01" =
      ([], some DlError.fileNotFound) := by decide

/-- C8 (amended): when the explicit path contains a directory component, the
parent directory is created (recursively) exactly when it does not exist and
the table is written to the path; when no path is given (`None` or the empty
string, both falsy in Python), the table is written to the generated
filename; but an explicit path with no directory component crashes with
`FileNotFoundError` before writing. -/
theorem save_step_behavior (env : String → Bool) (p symbol interval rs re : String)
    (hp : p ≠ "") (hd : dirname p ≠ "") :
    (py_exists env (dirname p) = true →
      save_step env (some p) symbol interval rs re = ([FsOp.writeCsv p], none)) ∧
    (py_exists env (dirname p) = false →
      save_step env (some p) symbol interval rs re =
        ([FsOp.makedirs (dirname p), FsOp.writeCsv p], none)) ∧
    save_step env (some "") symbol interval rs re =
      ([FsOp.writeCsv (default_csv_name symbol interval rs re)], none) ∧
    save_step env none symbol interval rs re =
      ([FsOp.writeCsv (default_csv_name symbol interval rs re)], none) := by
    refine ⟨?_, ?_, ?_, rfl⟩
    · intro hx
      simp [save_step, pyTruthyStr, hp, hx]
    · intro hx
      simp [save_step, pyTruthyStr, hp, hx, hd]
    · simp [save_step, pyTruthyStr]

/-- Witness for the amended C8 at the path `data/out.csv` over an empty
filesystem: the parent directory `data` is created and the file written. -/
theorem save_step_behavior_witness :
    py_exists (fun _ => false) (dirname "data/out.csv") = false ∧
    save_step (fun _ => false) (some "data/out.csv") "BTC/USDT" "15m" "2021-07-01" "2021-08-01" =
      ([FsOp.makedirs "data", FsOp.writeCsv "data/out.csv"], none) :=
  ⟨by decide,
   by
    have h := (save_step_behavior (fun _ => false) "data/out.csv" "BTC/USDT" "15m"
      "2021-07-01" "2021-08-01" (by decide) (by decide)).2.1 (by decide)
    simpa using h⟩

end DataDownload

namespace DataDownload

/-- Helper: the request cap term evaluated. -/
theorem REQ_LIMIT_sub_one_mul (iv : Int) : (REQ_LIMIT - 1) * iv = 999 * iv := by
  norm_num [REQ_LIMIT]

/-- Helper: one unfolding of the loop when its condition holds. -/
theorem pairsGo_succ_pos {E iv cur_start cur_end : Int} {fuel : Nat}
    (h : cur_end < E - iv) :
    pairsGo E iv cur_start cur_end (fuel + 1) =
      (cur_start, min E (cur_start + (REQ_LIMIT - 1) * iv)) ::
        pairsGo E iv (min E (cur_start + (REQ_LIMIT - 1) * iv) + iv)
          (min E (cur_start + (REQ_LIMIT - 1) * iv)) fuel := by
  simp only [pairsGo]
  rw [if_pos h]

/-- Helper: the loop yields nothing once its condition fails. -/
theorem pairsGo_stop {E iv cur_start cur_end : Int} {fuel : Nat}
    (h : ¬ cur_end < E - iv) :
    pairsGo E iv cur_start cur_end fuel = [] := by
  cases fuel with
  | zero => rfl
  | succ n => simp only [pairsGo]; rw [if_neg h]

/-- Helper: every emitted window spans at most `(REQ_LIMIT - 1) * iv`. -/
theorem pairsGo_width {E iv : Int} :
    ∀ {fuel : Nat} {cs ce : Int} {p : Int × Int},
      p ∈ pairsGo E iv cs ce fuel → p.2 - p.1 ≤ (REQ_LIMIT - 1) * iv := by
  intro fuel
  induction fuel with
  | zero => intro cs ce p hp; simp [pairsGo] at hp
  | succ n ih =>
    intro cs ce p hp
    by_cases h : ce < E - iv
    · rw [pairsGo_succ_pos h] at hp
      rcases List.mem_cons.mp hp with rfl | hmem
      · show min E (cs + (REQ_LIMIT - 1) * iv) - cs ≤ (REQ_LIMIT - 1) * iv
        have hmin : min E (cs + (REQ_LIMIT - 1) * iv) ≤ cs + (REQ_LIMIT - 1) * iv :=
          min_le_right _ _
        omega
      · exact ih hmem
    · rw [pairsGo_stop h] at hp
      simp at hp

/-- Helper: a nonempty loop output starts with the current `cur_start`. -/
theorem pairsGo_head_start {E iv : Int} (fuel : Nat) (cs ce : Int) :
    pairsGo E iv cs ce fuel = [] ∨ ∃ b, (pairsGo E iv cs ce fuel).head? = some (cs, b) := by
  cases fuel with
  | zero => exact Or.inl rfl
  | succ n =>
    by_cases h : ce < E - iv
    · exact Or.inr ⟨_, by rw [pairsGo_succ_pos h]; rfl⟩
    · exact Or.inl (pairsGo_stop h)

/-- Helper: consecutive emitted windows satisfy
`next start = previous end + iv`. -/
theorem pairsGo_chain {E iv : Int} :
    ∀ (fuel : Nat) (cs ce : Int),
      List.Chain' (fun p q : Int × Int => q.1 = p.2 + iv) (pairsGo E iv cs ce fuel) := by
  intro fuel
  induction fuel with
  | zero => intro cs ce; exact List.chain'_nil
  | succ n ih =>
    intro cs ce
    by_cases h : ce < E - iv
    · rw [pairsGo_succ_pos h]
      refine List.chain'_cons'.mpr ⟨?_, ih _ _⟩
      intro q hq
      rcases @pairsGo_head_start E iv n
          (min E (cs + (REQ_LIMIT - 1) * iv) + iv) (min E (cs + (REQ_LIMIT - 1) * iv)) with
        he | ⟨b, hb⟩
      · rw [he] at hq; simp at hq
      · rw [hb] at hq
        have hq2 : (min E (cs + (REQ_LIMIT - 1) * iv) + iv, b) = q := by simpa using hq
        rw [← hq2]
    · rw [pairsGo_stop h]
      exact List.chain'_nil

/-- Helper: with a positive interval and the loop-state invariant
`cur_end ≤ cur_start ≤ cur_end + iv`, every emitted window is nondegenerate. -/
theorem pairsGo_start_lt_end {E iv : Int} (hiv : 0 < iv) :
    ∀ (fuel : Nat) (cs ce : Int), ce ≤ cs → cs ≤ ce + iv →
      ∀ p ∈ pairsGo E iv cs ce fuel, p.1 < p.2 := by
  intro fuel
  induction fuel with
  | zero => intro cs ce _ _ p hp; simp [pairsGo] at hp
  | succ n ih =>
    intro cs ce h1 h2 p hp
    by_cases h : ce < E - iv
    · rw [pairsGo_succ_pos h] at hp
      rcases List.mem_cons.mp hp with rfl | hmem
      · show cs < min E (cs + (REQ_LIMIT - 1) * iv)
        rw [REQ_LIMIT_sub_one_mul]
        refine lt_min (by omega) (by omega)
      · refine ih _ _ (le_add_of_nonneg_right hiv.le) (le_refl _) p hmem
    · rw [pairsGo_stop h] at hp
      simp at hp

/-- Helper: dropping the head of a list with a nonempty tail keeps the last
element. -/
theorem getLast?_cons_of_ne_nil {α : Type} (a : α) {l : List α} (h : l ≠ []) :
    (a :: l).getLast? = l.getLast? := by
  cases l with
  | nil => exact absurd rfl h
  | cons b t => exact List.getLast?_cons_cons

/-- Helper: when the loop condition holds and the fuel exceeds the remaining
span, the loop output is nonempty and its last window's end lands within one
interval of `E` (the loop exits with `E - iv ≤ cur_end ≤ E`). -/
theorem pairsGo_getLast {E iv : Int} (hiv : 0 < iv) :
    ∀ (fuel : Nat) (cs ce : Int), ce ≤ cs → cs ≤ ce + iv →
      (E - iv - ce).toNat < fuel → ce < E - iv →
      ∃ l, (pairsGo E iv cs ce fuel).getLast? = some l ∧ E - iv ≤ l.2 ∧ l.2 ≤ E := by
  intro fuel
  induction fuel with
  | zero => intro cs ce _ _ hf _; exact absurd hf (Nat.not_lt_zero _)
  | succ n ih =>
    intro cs ce h1 h2 hf hcond
    rw [pairsGo_succ_pos hcond]
    by_cases h : min E (cs + (REQ_LIMIT - 1) * iv) < E - iv
    · have hlt : ce < min E (cs + (REQ_LIMIT - 1) * iv) := by
        rw [REQ_LIMIT_sub_one_mul]
        refine lt_min (by omega) (by omega)
      have hmeas : (E - iv - min E (cs + (REQ_LIMIT - 1) * iv)).toNat < n := by
        omega
      obtain ⟨l, hl, hb1, hb2⟩ := ih (min E (cs + (REQ_LIMIT - 1) * iv) + iv)
        (min E (cs + (REQ_LIMIT - 1) * iv))
        (le_add_of_nonneg_right hiv.le) (le_refl _) hmeas h
      have hne : pairsGo E iv (min E (cs + (REQ_LIMIT - 1) * iv) + iv)
          (min E (cs + (REQ_LIMIT - 1) * iv)) n ≠ [] := by
        intro hemp
        rw [hemp] at hl
        simp at hl
      rw [getLast?_cons_of_ne_nil _ hne]
      exact ⟨l, hl, hb1, hb2⟩
    · rw [pairsGo_stop h]
      exact ⟨(cs, min E (cs + (REQ_LIMIT - 1) * iv)), rfl, le_of_not_lt h, min_le_left _ _⟩

/-- C2: for every pair of timestamps and every interval token that converts
to `iv` seconds, each window emitted by `get_start_end_pairs` satisfies
`end - start ≤ (REQ_LIMIT - 1) * iv`, and each consecutive pair of windows
satisfies `next start = previous end + iv`. -/
theorem get_start_end_pairs_window_invariants (start_ts end_ts : Int) (interval : String)
    (iv : Int) (ht : interval_to_seconds interval = some iv)
    (res : List (Int × Int)) (hres : get_start_end_pairs start_ts end_ts interval = some res) :
    (∀ p ∈ res, p.2 - p.1 ≤ (REQ_LIMIT - 1) * iv) ∧
    List.Chain' (fun p q : Int × Int => q.1 = p.2 + iv) res := by
  have hres2 : res = get_start_end_pairs_ts start_ts end_ts iv := by
    rw [get_start_end_pairs, ht] at hres
    simp only [Option.map_some', Option.some.injEq] at hres
    exact hres.symm
  subst hres2
  constructor
  · intro p hp
    simp only [get_start_end_pairs_ts] at hp
    exact pairsGo_width hp
  · exact pairsGo_chain _ _ _

/-- Witness for C2 with `interval = "1m"`, timestamps 10 and 300: the single
emitted window is (10, 300), of span 290 ≤ 999 * 60. -/
theorem get_start_end_pairs_window_invariants_witness :
    (interval_to_seconds "1m" = some 60 ∧ get_start_end_pairs 10 300 "1m" = some [(10, 300)]) ∧
    ((∀ p ∈ [((10 : Int), (300 : Int))], p.2 - p.1 ≤ (REQ_LIMIT - 1) * 60) ∧
      List.Chain' (fun p q : Int × Int => q.1 = p.2 + 60) [((10 : Int), (300 : Int))]) :=
  ⟨⟨by decide, by decide⟩,
   get_start_end_pairs_window_invariants 10 300 "1m" 60 (by decide) [(10, 300)] (by decide)⟩

/-- C1 (counterexample): with start timestamp 0 strictly earlier than end
timestamp 86400 (the dates 1970-01-01 and 1970-01-02 at midnight) and the
supported interval `1d`, `get_start_end_pairs` returns the empty sequence —
the loop condition `0 < 86400 - 86400` fails immediately — contradicting the
claimed non-emptiness and full coverage. -/
theorem get_start_end_pairs_empty_counterexample :
    (0 : Int) < 86400 ∧ get_start_end_pairs 0 86400 "1d" = some [] :=
  ⟨by decide, by decide⟩

/-- C1 (amended): whenever the span exceeds one interval
(`iv < end_ts - start_ts`), `get_start_end_pairs` returns a non-empty
ordered sequence of windows that starts at the start timestamp, has
`start < end` inside every window, is contiguous without gaps or overlaps on
the candle grid (`next start = previous end + iv`), and whose final end
lands within one interval of the requested end
(`end_ts - iv ≤ final end ≤ end_ts`). -/
theorem get_start_end_pairs_cover (start_ts end_ts : Int) (interval : String) (iv : Int)
    (ht : interval_to_seconds interval = some iv) (hiv : 0 < iv)
    (hspan : iv < end_ts - start_ts) :
    ∃ res, get_start_end_pairs start_ts end_ts interval = some res ∧
      res ≠ [] ∧
      (∃ b, res.head? = some (start_ts, b)) ∧
      (∀ p ∈ res, p.1 < p.2) ∧
      List.Chain' (fun p q : Int × Int => q.1 = p.2 + iv) res ∧
      ∃ l, res.getLast? = some l ∧ end_ts - iv ≤ l.2 ∧ l.2 ≤ end_ts := by
  have hcond : start_ts < end_ts - iv := by omega
  have hfuel : (end_ts - iv - start_ts).toNat < (end_ts - start_ts).toNat + 1 := by omega
  refine ⟨get_start_end_pairs_ts start_ts end_ts iv, ?_, ?_, ?_, ?_, ?_, ?_⟩
  · rw [get_start_end_pairs, ht]
    rfl
  · rw [get_start_end_pairs_ts, pairsGo_succ_pos hcond]
    exact List.cons_ne_nil _ _
  · rw [get_start_end_pairs_ts, pairsGo_succ_pos hcond]
    exact ⟨_, rfl⟩
  · intro p hp
    simp only [get_start_end_pairs_ts] at hp
    exact pairsGo_start_lt_end hiv _ _ _ (le_refl _) (by omega) p hp
  · exact pairsGo_chain _ _ _
  · rw [get_start_end_pairs_ts]
    exact pairsGo_getLast hiv _ _ _ (le_refl _) (by omega) hfuel hcond

/-- Witness for the amended C1 at start 0, end 200, interval `1m`. -/
theorem get_start_end_pairs_cover_witness :
    (interval_to_seconds "1m" = some 60 ∧ (0 : Int) < 60 ∧ (60 : Int) < 200 - 0) ∧
    (∃ res, get_start_end_pairs 0 200 "1m" = some res ∧
      res ≠ [] ∧
      (∃ b, res.head? = some (0, b)) ∧
      (∀ p ∈ res, p.1 < p.2) ∧
      List.Chain' (fun p q : Int × Int => q.1 = p.2 + 60) res ∧
      ∃ l, res.getLast? = some l ∧ 200 - 60 ≤ l.2 ∧ l.2 ≤ 200) :=
  ⟨⟨by decide, by decide, by decide⟩,
   get_start_end_pairs_cover 0 200 "1m" 60 (by decide) (by decide) (by decide)⟩

end DataDownload

namespace DataDownload

/-- Witness for C9: a failed request yields the empty list; a successful
response with one trading and one halted instrument yields exactly the
uppercased trading pair. -/
theorem get_support_symbols_spec_witness :
    get_support_symbols (Except.error "connection refused") = [] ∧
    get_support_symbols
        (Except.ok [⟨"btc", "usdt", "TRADING"⟩, ⟨"eth", "usdt", "BREAK"⟩]) = ["BTC/USDT"] :=
  ⟨get_support_symbols_spec.1 "connection refused",
   by
    rw [get_support_symbols_spec.2
      [⟨"btc", "usdt", "TRADING"⟩, ⟨"eth", "usdt", "BREAK"⟩]]
    decide⟩

end DataDownload
